import Mathlib

/-!
Verification development for the single-file Telegram subscription manager
(`telegram_subscription_bot.py`).  The data layer (SQLite tables `products`,
`settings`, `admins`) is embedded as Lean lists; timestamps are integers
(seconds since the Unix epoch) — the configured timezone (Asia/Dubai,
UTC+4, no daylight saving) is a fixed offset, so Python aware-datetime
arithmetic with `timedelta(days=d)` coincides with adding `d * 86400`
seconds to the instant.  Each handler of the bot is embedded as a pure
function from its inputs (store, settings, per-user conversation data,
message text) to the updated state together with the reply it sends.
-/

namespace SalesBot

/-- Seconds per day: `timedelta(days=1)` on a fixed-offset timezone. -/
def secPerDay : Int := 86400

/-- Fixed UTC offset of the configured timezone (Asia/Dubai, UTC+4). -/
def tzOffsetSeconds : Int := 4 * 3600

/-- One row of the `products` table. -/
structure Product where
  id : Nat
  description : String
  buyer_id : Option String
  purchase_date : Int
  duration_days : Int
  expires_at : Int
  is_active : Bool
  created_at : Int
  updated_at : Int
deriving Repr, DecidableEq

/-- One `(name, interval-in-seconds)` job of the job queue. -/
structure Job where
  name : String
  interval : Int
deriving Repr, DecidableEq

/-- Replies the handlers send back (the Persian literals of the source are
abstracted to their role). -/
inductive Reply where
  | notFound
  | renewed (newExpiry : Int)
  | closed (pid : Nat)
  | errNoDesc
  | errParse
  | created (pid : Nat) (expiry : Int)
  | askDateReply
deriving Repr, DecidableEq

/-- Conversation states of the `add` flow (`ConversationHandler.END` is
modelled as `idle`). -/
inductive ConvState where
  | idle
  | askDesc
  | askDate
deriving Repr, DecidableEq

/-! ### Character-level helpers (executable models of Python string ops) -/

/-- Drop leading whitespace characters. -/
def dropWhileWs : List Char → List Char
  | [] => []
  | c :: cs => if c.isWhitespace then dropWhileWs cs else c :: cs

/-- Model of Python `str.strip()`: remove leading and trailing whitespace. -/
def pyStrip (s : String) : String :=
  String.mk ((dropWhileWs ((dropWhileWs s.data).reverse)).reverse)

/-- Digits-only string to a number; `none` when empty or a non-digit occurs. -/
def digitsToNat? : List Char → Option Nat
  | [] => none
  | cs => go cs 0
where
  go : List Char → Nat → Option Nat
    | [], acc => some acc
    | c :: cs, acc =>
        if c.isDigit then go cs (acc * 10 + (c.toNat - 48)) else none

/-- Model of Python `int(s)`: optional surrounding whitespace, optional
sign, then decimal digits; raising `ValueError` is modelled as `none`. -/
def pyInt? (s : String) : Option Int :=
  match (pyStrip s).data with
  | '-' :: rest => (digitsToNat? rest).map (fun n => -(n : Int))
  | '+' :: rest => (digitsToNat? rest).map (fun n => (n : Int))
  | cs => (digitsToNat? cs).map (fun n => (n : Int))

/-- Split a character list at every occurrence of `sep`. -/
def splitOnChar (sep : Char) : List Char → List (List Char)
  | [] => [[]]
  | c :: cs =>
      match splitOnChar sep cs with
      | [] => if c == sep then [[], []] else [[c]]
      | h :: t => if c == sep then [] :: h :: t else (c :: h) :: t

/-- Days since 1970-01-01 of the civil date `y-m-d` (proleptic Gregorian;
the standard civil-from-days algorithm, all operands non-negative for the
years produced by parsing). -/
def daysFromCivil (y m d : Int) : Int :=
  let yy := if m ≤ 2 then y - 1 else y
  let era := (if 0 ≤ yy then yy else yy - 399) / 400
  let yoe := yy - era * 400
  let mp := (m + 9) % 12
  let doy := (153 * mp + 2) / 5 + d - 1
  let doe := yoe * 365 + yoe / 4 - yoe / 100 + doy
  era * 146097 + doe - 719468

/-- Instant of local midnight of the date `y-m-d` in the configured
fixed-offset timezone, or `none` for out-of-range components. -/
def mkDate? (y m d : Nat) : Option Int :=
  if 1 ≤ m && m ≤ 12 && 1 ≤ d && d ≤ 31 && 1 ≤ y then
    some (daysFromCivil (y : Int) (m : Int) (d : Int) * secPerDay - tzOffsetSeconds)
  else none

/-- Model of `parse_date` (source uses the external `dateutil` parser with
`dayfirst=True`), restricted to the two documented notations: ISO
`YYYY-MM-DD` and day-first `DD/MM/YYYY`.  Returns the timezone-aware local
midnight instant, or `none` when the text is not a calendar date. -/
def parseDate? (s : String) : Option Int :=
  match (splitOnChar '-' s.data).map digitsToNat? with
  | [some y, some m, some d] => mkDate? y m d
  | _ =>
      match (splitOnChar '/' s.data).map digitsToNat? with
      | [some d, some m, some y] => mkDate? y m d
      | _ => none

/-! ### Settings table (`get_setting` / `set_setting` and typed readers) -/

/-- `get_setting(key, default)`: value of the row with this key, else the
default string. -/
def get_setting (settings : List (String × String)) (key dflt : String) : String :=
  match settings.find? (fun kv => kv.1 == key) with
  | some kv => kv.2
  | none => dflt

/-- `set_setting(key, value)`: SQL upsert — replace the value of the unique
row with this key, or append a fresh row. -/
def set_setting (settings : List (String × String)) (key value : String) :
    List (String × String) :=
  match settings with
  | [] => [(key, value)]
  | kv :: rest =>
      if kv.1 == key then (key, value) :: rest
      else kv :: set_setting rest key value

/-- `get_default_days()`: `int(...)` of the stored value, falling back to
the built-in 30 when the key is absent or the value does not parse
(`try/except` in the source). -/
def get_default_days (settings : List (String × String)) : Int :=
  match pyInt? (get_setting settings "default_duration_days" "30") with
  | some n => n
  | none => 30

/-- `get_backup_interval_hours()`: like `get_default_days` with key
`backup_interval_hours` and built-in default 24. -/
def get_backup_interval_hours (settings : List (String × String)) : Int :=
  match pyInt? (get_setting settings "backup_interval_hours" "24") with
  | some n => n
  | none => 24

/-- `is_backup_enabled()`: the stored flag string equals `"1"`. -/
def is_backup_enabled (settings : List (String × String)) : Bool :=
  get_setting settings "backup_enabled" "0" == "1"

/-! ### Authorization (`is_admin`) -/

/-- `is_admin(update)`: with an empty admins table, allow exactly private
chats (bootstrap); otherwise membership of the requester id (Python
`None in admins` is false). -/
def is_admin (admins : List Int) (userId : Option Int) (chatType : String) : Bool :=
  if admins.isEmpty then chatType == "private"
  else
    match userId with
    | some c => admins.contains c
    | none => false

/-! ### Renew / finish -/

/-- The row transformer of the renew `UPDATE` statement. -/
def renewRow (pid : Nat) (newExpiry extraDays now : Int) (p : Product) : Product :=
  if p.id == pid then
    { p with expires_at := newExpiry,
             duration_days := p.duration_days + extraDays,
             updated_at := now }
  else p

/-- `renew` (command handler, lines 519–530; the button handler at
745–761 runs the same statements with `extra_days = get_default_days()`):
fetch the row, report not-found if absent, otherwise set
`expires_at = prior expires_at + extraDays` days and bump
`duration_days`. -/
def renewCmd (store : List Product) (pid : Nat) (extraDays now : Int) :
    List Product × Reply :=
  match store.find? (fun p => p.id == pid) with
  | none => (store, .notFound)
  | some row =>
      let newExpiry := row.expires_at + extraDays * secPerDay
      (store.map (renewRow pid newExpiry extraDays now), .renewed newExpiry)

/-- `finish` (lines 533–550): unconditional
`UPDATE products SET is_active=0 WHERE id=?` followed by the fixed
"closed" reply — no existence check. -/
def finishCmd (store : List Product) (pid : Nat) (now : Int) :
    List Product × Reply :=
  (store.map (fun p =>
      if p.id == pid then { p with is_active := false, updated_at := now } else p),
   .closed pid)

/-! ### `add` flow handlers -/

/-- Result of `add_got_desc`: the stored pending description
(`user_data["new_desc"]`), the conversation state returned, the reply. -/
structure DescOut where
  newDesc : Option String
  state : ConvState
  reply : Reply
deriving Repr, DecidableEq

/-- `add_got_desc` (lines 399–405): store the stripped text as the pending
description and move to `ASK_DATE` — there is no emptiness check. -/
def add_got_desc (text : String) : DescOut :=
  ⟨some (pyStrip text), .askDate, .askDateReply⟩

/-- Result of `add_got_date`: the store, the pending description after the
handler (the source pops it in a `finally`), the conversation state
returned, the reply. -/
structure AddDateOut where
  store : List Product
  newDesc : Option String
  state : ConvState
  reply : Reply
deriving Repr, DecidableEq

/-- Fresh id assigned by SQLite `AUTOINCREMENT`: one more than the largest
id ever used (the table is never physically deleted from). -/
def nextId (store : List Product) : Nat :=
  1 + store.foldr (fun p m => max p.id m) 0

/-- `add_got_date` (lines 408–443): with no (or a falsy, i.e. empty)
pending description, reply an error; otherwise parse the stripped text as
a date — on failure the `except` branch replies the error; on success
insert the row with `expires_at = purchase midnight + default days` and
`duration_days = default days`.  In every path the `finally` clause pops
`new_desc` and the handler returns `ConversationHandler.END`. -/
def add_got_date (parse : String → Option Int) (defaultDays : Int)
    (newDesc : Option String) (text : String) (store : List Product)
    (now : Int) : AddDateOut :=
  match newDesc with
  | none => ⟨store, none, .idle, .errNoDesc⟩
  | some desc =>
      if desc == "" then ⟨store, none, .idle, .errNoDesc⟩
      else
        match parse (pyStrip text) with
        | none => ⟨store, none, .idle, .errParse⟩
        | some pdate =>
            let expires := pdate + defaultDays * secPerDay
            let nid := nextId store
            ⟨store ++ [⟨nid, desc, none, pdate, defaultDays, expires, true, now, now⟩],
             none, .idle, .created nid expires⟩

/-! ### Expired listing -/

/-- `list_expired` (lines 481–502): active rows with
`datetime(expires_at) <= datetime(now)`, ordered by expiry ascending,
`LIMIT 200`. -/
def list_expired (store : List Product) (now : Int) : List Product :=
  (((store.filter (fun p => p.is_active && decide (p.expires_at ≤ now))).mergeSort
      (fun a b => decide (a.expires_at ≤ b.expires_at))).take 200)

/-! ### Backup scheduling -/

/-- `reschedule_backup_job` (lines 350–377), with the job queue present:
remove every job named `backup_job`; if backups are enabled install one
repeating job at `max(1, hours) * 3600` seconds. -/
def reschedule_backup_job (settings : List (String × String)) (jobs : List Job) :
    List Job :=
  let pruned := jobs.filter (fun j => !(j.name == "backup_job"))
  if is_backup_enabled settings then
    pruned ++ [⟨"backup_job", max 1 (get_backup_interval_hours settings) * 3600⟩]
  else pruned

/-- `backup:on:h` button (lines 724–733): store the enabled flag and the
interval string (`str(hours)` in the source, passed here as the stored
string), then reschedule. -/
def backupOn (settings : List (String × String)) (jobs : List Job)
    (hoursStr : String) : List (String × String) × List Job :=
  let s1 := set_setting settings "backup_enabled" "1"
  let s2 := set_setting s1 "backup_interval_hours" hoursStr
  (s2, reschedule_backup_job s2 jobs)

/-- `backup:off` button (lines 734–738): clear the flag, then reschedule. -/
def backupOff (settings : List (String × String)) (jobs : List Job) :
    List (String × String) × List Job :=
  let s1 := set_setting settings "backup_enabled" "0"
  (s1, reschedule_backup_job s1 jobs)

/-- A reconfiguration action of the backup duty. -/
inductive BackupAction where
  | enable (hoursStr : String)
  | disable
deriving Repr, DecidableEq

/-- Apply one reconfiguration action. -/
def applyBackupAction (s : List (String × String) × List Job) :
    BackupAction → List (String × String) × List Job
  | .enable hs => backupOn s.1 s.2 hs
  | .disable => backupOff s.1 s.2

/-- Run a sequence of reconfiguration actions. -/
def runBackupActions (s : List (String × String) × List Job)
    (acts : List BackupAction) : List (String × String) × List Job :=
  acts.foldl applyBackupAction s

/-! ### Notification fan-out -/

/-- The per-recipient delivery loop: `for aid in admin_ids: try: send
except Exception: pass`.  `send` models the transport call, which may
fail; the handler swallows the failure.  Returns the recipients attempted
(in order) and the number delivered. -/
def fanout (send : Int → Except String Unit) (recipients : List Int) :
    List Int × Nat :=
  recipients.foldl
    (fun acc aid =>
      match send aid with
      | .ok _ => (acc.1 ++ [aid], acc.2 + 1)
      | .error _ => (acc.1 ++ [aid], acc.2))
    ([], 0)

/-- `send_backup_to_admins` (lines 325–347): return early with no sends if
there are no admins; if the archive exceeds the ceiling, send each admin
the path message, otherwise send each admin the document — both loops
swallow per-recipient failures. -/
def send_backup_to_admins (sendMsg sendDoc : Int → Except String Unit)
    (adminIds : List Int) (sizeMB maxMB : Int) : List Int × Nat :=
  if adminIds = [] then ([], 0)
  else if maxMB < sizeMB then fanout sendMsg adminIds
  else fanout sendDoc adminIds

/-- The delivery loop of `daily_summary` (lines 801–805): send the digest
text to every admin, swallowing per-recipient failures. -/
def daily_summary (sendMsg : Int → Except String Unit) (adminIds : List Int) :
    List Int × Nat :=
  if adminIds = [] then ([], 0) else fanout sendMsg adminIds

/-! ## Theorems -/

/-- Claim C1: with an empty operator registry, `is_admin` authorizes a
requester exactly when the conversation is private; once the registry is
non-empty, it authorizes exactly the listed requester ids, regardless of
the conversation kind. -/
theorem is_admin_policy (admins : List Int) (uid : Int) (chatType : String) :
    is_admin [] (some uid) chatType = (chatType == "private") ∧
    (admins ≠ [] → is_admin admins (some uid) chatType = admins.contains uid) := by
  constructor
  · rfl
  · intro h
    unfold is_admin
    simp [List.isEmpty_eq_false_iff_exists_mem.mpr, h]

/-- Witness for C1 at a concrete registry, requester and chat kind. -/
theorem is_admin_policy_witness :
    is_admin [] (some 5) "private" = ("private" == "private") ∧
    is_admin [7] (some 5) "group" = List.contains [7] 5 :=
  ⟨(is_admin_policy [] 5 "private").1,
   (is_admin_policy [7] 5 "group").2 (by decide)⟩

/-- Claim C10: reading the default duration or the backup interval yields
the built-in default (30 days, 24 hours respectively) both when the key is
absent and when the stored value does not parse as an integer; the readers
are total Lean functions, so the read never raises. -/
theorem settings_read_fallback (settings : List (String × String)) :
    (settings.find? (fun kv => kv.1 == "default_duration_days") = none →
       get_default_days settings = 30) ∧
    (∀ kv, settings.find? (fun kv => kv.1 == "default_duration_days") = some kv →
       pyInt? kv.2 = none → get_default_days settings = 30) ∧
    (settings.find? (fun kv => kv.1 == "backup_interval_hours") = none →
       get_backup_interval_hours settings = 24) ∧
    (∀ kv, settings.find? (fun kv => kv.1 == "backup_interval_hours") = some kv →
       pyInt? kv.2 = none → get_backup_interval_hours settings = 24) := by
  refine ⟨?_, ?_, ?_, ?_⟩
  · intro h
    unfold get_default_days get_setting
    rw [h]
    decide
  · intro kv h hbad
    unfold get_default_days get_setting
    rw [h, hbad]
  · intro h
    unfold get_backup_interval_hours get_setting
    rw [h]
    decide
  · intro kv h hbad
    unfold get_backup_interval_hours get_setting
    rw [h, hbad]

/-- Witness for C10 on a settings table holding unparseable values. -/
theorem settings_read_fallback_witness :
    get_default_days [("default_duration_days", "abc"), ("backup_interval_hours", "x1")] = 30 ∧
    get_backup_interval_hours
      [("default_duration_days", "abc"), ("backup_interval_hours", "x1")] = 24 :=
  ⟨(settings_read_fallback _).2.1 ("default_duration_days", "abc") (by decide) (by decide),
   (settings_read_fallback _).2.2.2 ("backup_interval_hours", "x1") (by decide) (by decide)⟩

/-- The fan-out loop attempts every recipient, whatever the send outcomes. -/
theorem fanout_attempts_all (send : Int → Except String Unit) (rs : List Int) :
    (fanout send rs).1 = rs := by
  have go : ∀ (rs : List Int) (acc : List Int) (n : Nat),
      (List.foldl
        (fun acc aid =>
          match send aid with
          | .ok _ => (acc.1 ++ [aid], acc.2 + 1)
          | .error _ => (acc.1 ++ [aid], acc.2))
        (acc, n) rs).1 = acc ++ rs := by
    intro rs
    induction rs with
    | nil => intro acc n; simp
    | cons a t ih =>
        intro acc n
        simp only [List.foldl_cons]
        cases h : send a <;> simp [h, ih]
  simpa using go rs [] 0

/-- Claim C9: for every recipient list and every pattern of per-recipient
delivery failures, the backup fan-out and the daily-digest fan-out still
attempt delivery to every recipient — a failure is swallowed by the
`try/except` and never aborts the loop (both functions are total, so no
error surfaces to the trigger). -/
theorem delivery_attempts_every_recipient (sendMsg sendDoc : Int → Except String Unit)
    (admins : List Int) (sizeMB maxMB : Int) :
    (send_backup_to_admins sendMsg sendDoc admins sizeMB maxMB).1 = admins ∧
    (daily_summary sendMsg admins).1 = admins := by
  constructor
  · unfold send_backup_to_admins
    by_cases h : admins = []
    · simp [h]
    · by_cases hs : maxMB < sizeMB <;> simp [h, hs, fanout_attempts_all]
  · unfold daily_summary
    by_cases h : admins = []
    · simp [h]
    · simp [h, fanout_attempts_all]

/-- Counterexample to C4 as stated: `finish` on an id absent from the store
replies the fixed "closed" confirmation, not a not-found error. -/
theorem finish_unknown_id_cex :
    (finishCmd [] 7 0).2 = Reply.closed 7 ∧ (finishCmd [] 7 0).2 ≠ Reply.notFound := by
  decide

/-- Claim C4 (amended): for an id absent from the store, `renew` reports
not-found and leaves the store unchanged; `finish` leaves the store
unchanged but replies the fixed closed confirmation instead of reporting
not-found. -/
theorem unknown_id_no_mutation (store : List Product) (pid : Nat) (d now : Int)
    (habs : store.find? (fun p => p.id == pid) = none) :
    renewCmd store pid d now = (store, Reply.notFound) ∧
    finishCmd store pid now = (store, Reply.closed pid) := by
  have hmem := List.find?_eq_none.mp habs
  constructor
  · unfold renewCmd
    rw [habs]
  · unfold finishCmd
    have hmap : store.map (fun p =>
        if p.id == pid then { p with is_active := false, updated_at := now } else p)
        = store := by
      have := List.map_congr_left (l := store)
        (f := fun p =>
          if p.id == pid then { p with is_active := false, updated_at := now } else p)
        (g := id) ?_
      · simpa using this
      · intro a ha
        simp [Bool.not_eq_true] at hmem
        simp [hmem a ha]
    rw [hmap]

/-- Witness for C4 (amended) at an empty store. -/
theorem unknown_id_no_mutation_witness :
    renewCmd [] 9 3 0 = ([], Reply.notFound) ∧
    finishCmd [] 9 0 = ([], Reply.closed 9) :=
  unknown_id_no_mutation [] 9 3 0 (by decide)

/-- Counterexample to C5 as stated: a message whose trimmed form is empty
is not rejected — the handler stores the empty pending description and
advances to the date state. -/
theorem empty_desc_advances_cex :
    (add_got_desc "   ").state = ConvState.askDate ∧
    (add_got_desc "   ").newDesc = some "" := by
  decide

/-- Claim C5 (amended): `add_got_desc` stores the stripped text as the
pending description and advances to AWAITING_DATE for every input, even
one that strips to empty; the empty description is only rejected later at
the date step, where the flow replies an error, ends, and inserts no
record. -/
theorem add_got_desc_stores_any (text t2 : String) (parse : String → Option Int)
    (dd : Int) (store : List Product) (now : Int) :
    add_got_desc text = ⟨some (pyStrip text), ConvState.askDate, Reply.askDateReply⟩ ∧
    add_got_date parse dd (some "") t2 store now =
      ⟨store, none, ConvState.idle, Reply.errNoDesc⟩ :=
  ⟨rfl, rfl⟩

/-- Counterexample to C3 as stated: in the date state, an unparseable text
does not keep the flow in AWAITING_DATE, and the pending description is
not preserved — the handler ends the conversation and pops it. -/
theorem bad_date_cex :
    (add_got_date parseDate? 30 (some "Plan A") "garbage" [] 0).state ≠ ConvState.askDate ∧
    (add_got_date parseDate? 30 (some "Plan A") "garbage" [] 0).newDesc ≠ some "Plan A" ∧
    (add_got_date parseDate? 30 (some "Plan A") "garbage" [] 0).reply = Reply.errParse := by
  decide

/-- Claim C3 (amended): in the date state, a text that fails to parse as a
calendar date produces an error reply, leaves the store unchanged, ends
the conversation (state back to IDLE), and clears the pending
description — the requester must restart the flow. -/
theorem bad_date_ends_flow (parse : String → Option Int) (dd : Int)
    (desc text : String) (store : List Product) (now : Int)
    (hdesc : desc ≠ "") (hparse : parse (pyStrip text) = none) :
    add_got_date parse dd (some desc) text store now =
      ⟨store, none, ConvState.idle, Reply.errParse⟩ := by
  simp [add_got_date, hparse, beq_iff_eq, hdesc]

/-- Witness for C3 (amended) at a concrete unparseable input. -/
theorem bad_date_ends_flow_witness :
    add_got_date parseDate? 30 (some "Plan A") "garbage" [] 0 =
      ⟨[], none, ConvState.idle, Reply.errParse⟩ :=
  bad_date_ends_flow parseDate? 30 "Plan A" "garbage" [] 0 (by decide) (by decide)

/-- The renew row transformer never changes the id. -/
theorem renewRow_id (pid : Nat) (e d n : Int) (p : Product) :
    (renewRow pid e d n p).id = p.id := by
  unfold renewRow
  split <;> rfl

/-- Searching by id commutes with the renew row transformer. -/
theorem find?_map_renewRow (pid : Nat) (e d n : Int) (l : List Product) :
    (l.map (renewRow pid e d n)).find? (fun p => p.id == pid) =
      (l.find? (fun p => p.id == pid)).map (renewRow pid e d n) := by
  have hp : ((fun p : Product => p.id == pid) ∘ renewRow pid e d n) =
      (fun p : Product => p.id == pid) := by
    funext q
    simp [Function.comp, renewRow_id]
  rw [List.find?_map, hp]

/-- `renew` on a present row: reply and stored row after the update. -/
theorem renewCmd_found (store : List Product) (pid : Nat) (row : Product)
    (d now : Int) (hfind : store.find? (fun p => p.id == pid) = some row) :
    renewCmd store pid d now =
      (store.map (renewRow pid (row.expires_at + d * secPerDay) d now),
       Reply.renewed (row.expires_at + d * secPerDay)) ∧
    (store.map (renewRow pid (row.expires_at + d * secPerDay) d now)).find?
        (fun p => p.id == pid) =
      some { row with expires_at := row.expires_at + d * secPerDay,
                      duration_days := row.duration_days + d,
                      updated_at := now } := by
  have hpred : (row.id == pid) = true := by
    exact List.find?_some (p := fun p : Product => p.id == pid) (l := store) (a := row) hfind
  constructor
  · unfold renewCmd
    rw [hfind]
  · rw [find?_map_renewRow, hfind]
    simp [renewRow, hpred]

/-- Claim C2: renewing a present record by `d1` then by `d2` yields the
same `expires_at` as one renewal by `d1 + d2`; each renewal sets the new
expiry to exactly the prior expiry plus its own delta (never recomputed
from the purchase date) and increases `duration_days` by the delta. -/
theorem renew_additive (store : List Product) (pid : Nat) (row : Product)
    (d1 d2 n1 n2 n3 : Int) (hd1 : 0 < d1) (hd2 : 0 < d2)
    (hfind : store.find? (fun p => p.id == pid) = some row) :
    (renewCmd store pid d1 n1).2 = Reply.renewed (row.expires_at + d1 * secPerDay) ∧
    (renewCmd store pid d1 n1).1.find? (fun p => p.id == pid) =
      some { row with expires_at := row.expires_at + d1 * secPerDay,
                      duration_days := row.duration_days + d1, updated_at := n1 } ∧
    (renewCmd (renewCmd store pid d1 n1).1 pid d2 n2).2 =
      Reply.renewed (row.expires_at + (d1 + d2) * secPerDay) ∧
    (renewCmd (renewCmd store pid d1 n1).1 pid d2 n2).1.find? (fun p => p.id == pid) =
      some { row with expires_at := row.expires_at + (d1 + d2) * secPerDay,
                      duration_days := row.duration_days + (d1 + d2), updated_at := n2 } ∧
    (renewCmd store pid (d1 + d2) n3).2 =
      Reply.renewed (row.expires_at + (d1 + d2) * secPerDay) := by
  obtain ⟨h1, h1f⟩ := renewCmd_found store pid row d1 n1 hfind
  have hs1 : (renewCmd store pid d1 n1).1.find? (fun p => p.id == pid) =
      some { row with expires_at := row.expires_at + d1 * secPerDay,
                      duration_days := row.duration_days + d1, updated_at := n1 } := by
    rw [h1]
    exact h1f
  obtain ⟨h2, h2f⟩ := renewCmd_found _ pid _ d2 n2 hs1
  obtain ⟨h3, _⟩ := renewCmd_found store pid row (d1 + d2) n3 hfind
  refine ⟨by rw [h1], hs1, ?_, ?_, by rw [h3]⟩
  · rw [h2]
    simp only [Reply.renewed.injEq]
    ring
  · rw [h2]
    simp only
    rw [h2f]
    simp [Product.mk.injEq]
    constructor <;> ring

/-- Witness for C2 on a one-row store, renewing by 10 then 5 days. -/
theorem renew_additive_witness :
    (renewCmd (renewCmd [⟨1, "A", none, 0, 30, 100, true, 0, 0⟩] 1 10 0).1 1 5 0).2 =
      Reply.renewed (100 + (10 + 5) * secPerDay) ∧
    (renewCmd [⟨1, "A", none, 0, 30, 100, true, 0, 0⟩] 1 (10 + 5) 0).2 =
      Reply.renewed (100 + (10 + 5) * secPerDay) :=
  ⟨(renew_additive [⟨1, "A", none, 0, 30, 100, true, 0, 0⟩] 1
      ⟨1, "A", none, 0, 30, 100, true, 0, 0⟩ 10 5 0 0 0
      (by decide) (by decide) (by decide)).2.2.1,
   (renew_additive [⟨1, "A", none, 0, 30, 100, true, 0, 0⟩] 1
      ⟨1, "A", none, 0, 30, 100, true, 0, 0⟩ 10 5 0 0 0
      (by decide) (by decide) (by decide)).2.2.2.2⟩

/-- Reading back the key just written yields the written value. -/
theorem get_set_same (s : List (String × String)) (k v d : String) :
    get_setting (set_setting s k v) k d = v := by
  induction s with
  | nil => simp [set_setting, get_setting]
  | cons kv rest ih =>
      by_cases h : kv.1 = k
      · simp [set_setting, get_setting, h]
      · simp only [set_setting, get_setting, beq_iff_eq, h, if_false] at ih ⊢
        rw [List.find?_cons_of_neg _ (by simp [h])]
        exact ih

/-- Writing one key leaves reads of a different key unchanged. -/
theorem get_set_other (s : List (String × String)) (k v k2 d : String)
    (hne : k2 ≠ k) :
    get_setting (set_setting s k v) k2 d = get_setting s k2 d := by
  have hkk2 : k ≠ k2 := Ne.symm hne
  induction s with
  | nil => simp [set_setting, get_setting, hkk2]
  | cons kv rest ih =>
      by_cases h : kv.1 = k
      · have h2 : kv.1 ≠ k2 := h ▸ hkk2
        simp only [set_setting, get_setting, beq_iff_eq, h, if_true]
        rw [List.find?_cons_of_neg _ (by simp [hkk2]),
            List.find?_cons_of_neg _ (by simp [h2])]
      · simp only [set_setting, get_setting, beq_iff_eq, h, if_false] at ih ⊢
        by_cases h2 : kv.1 = k2
        · rw [List.find?_cons_of_pos _ (by simp [h2]),
              List.find?_cons_of_pos _ (by simp [h2])]
        · rw [List.find?_cons_of_neg _ (by simp [h2]),
              List.find?_cons_of_neg _ (by simp [h2])]
          exact ih

/-- The backup jobs left by one reschedule call. -/
theorem reschedule_backup_filter (settings : List (String × String)) (jobs : List Job) :
    (reschedule_backup_job settings jobs).filter (fun j => j.name == "backup_job") =
      (if is_backup_enabled settings then
        [⟨"backup_job", max 1 (get_backup_interval_hours settings) * 3600⟩]
      else []) := by
  unfold reschedule_backup_job
  by_cases h : is_backup_enabled settings <;>
    simp [h, List.filter_append, List.filter_filter]

/-- Any reschedule call leaves at most one backup job. -/
theorem reschedule_countP_le_one (settings : List (String × String)) (jobs : List Job) :
    (reschedule_backup_job settings jobs).countP (fun j => j.name == "backup_job") ≤ 1 := by
  rw [List.countP_eq_length_filter, reschedule_backup_filter]
  by_cases h : is_backup_enabled settings <;> simp [h]

/-- Claim C6: enabling the backup duty with a stored interval string that
parses to `h ≥ 1` hours cancels any previously installed backup timer and
leaves exactly one backup timer, at `h` hours; disabling leaves zero
backup timers; and after any non-empty sequence of reconfiguration
actions at most one live backup timer exists. -/
theorem backup_single_timer (settings : List (String × String)) (jobs : List Job)
    (hoursStr : String) (h : Int) (h1 : 1 ≤ h)
    (hparse : pyInt? hoursStr = some h) :
    (backupOn settings jobs hoursStr).2.filter (fun j => j.name == "backup_job") =
      [⟨"backup_job", h * 3600⟩] ∧
    (backupOff settings jobs).2.filter (fun j => j.name == "backup_job") = [] ∧
    (∀ (acts : List BackupAction) (a : BackupAction),
       ((runBackupActions (settings, jobs) (acts ++ [a])).2.countP
           (fun j => j.name == "backup_job")) ≤ 1) := by
  refine ⟨?_, ?_, ?_⟩
  · unfold backupOn
    simp only
    rw [reschedule_backup_filter]
    have hen : is_backup_enabled
        (set_setting (set_setting settings "backup_enabled" "1")
          "backup_interval_hours" hoursStr) = true := by
      unfold is_backup_enabled
      rw [get_set_other _ _ _ _ _ (by decide), get_set_same]
      decide
    have hhr : get_backup_interval_hours
        (set_setting (set_setting settings "backup_enabled" "1")
          "backup_interval_hours" hoursStr) = h := by
      unfold get_backup_interval_hours
      rw [get_set_same, hparse]
    rw [hen, hhr]
    simp [max_eq_right h1]
  · unfold backupOff
    simp only
    rw [reschedule_backup_filter]
    have hen : is_backup_enabled (set_setting settings "backup_enabled" "0") = false := by
      unfold is_backup_enabled
      rw [get_set_same]
      decide
    rw [hen]
    simp
  · intro acts a
    rw [runBackupActions, List.foldl_append]
    cases a with
    | enable hs =>
        simp only [List.foldl_cons, List.foldl_nil, applyBackupAction]
        exact reschedule_countP_le_one _ _
    | disable =>
        simp only [List.foldl_cons, List.foldl_nil, applyBackupAction]
        exact reschedule_countP_le_one _ _

/-- Witness for C6: enabling at 12 hours over a queue already holding a
stale backup timer leaves exactly the one new timer. -/
theorem backup_single_timer_witness :
    (backupOn [] [⟨"backup_job", 7⟩, ⟨"daily", 1⟩] "12").2.filter
        (fun j => j.name == "backup_job") = [⟨"backup_job", 12 * 3600⟩] :=
  (backup_single_timer [] [⟨"backup_job", 7⟩, ⟨"daily", 1⟩] "12" 12
    (by decide) (by decide)).1

/-- Every id in the store is below the next auto-assigned id. -/
theorem id_lt_nextId (store : List Product) (p : Product) (hp : p ∈ store) :
    p.id < nextId store := by
  have hle : p.id ≤ store.foldr (fun q m => max q.id m) 0 := by
    induction store with
    | nil => cases hp
    | cons a t ih =>
        rcases List.mem_cons.mp hp with h | h
        · subst h
          exact Nat.le_max_left _ _
        · exact Nat.le_trans (ih h) (Nat.le_max_right _ _)
  unfold nextId
  omega

/-- No existing row carries the freshly assigned id. -/
theorem find?_nextId_none (store : List Product) :
    store.find? (fun p => p.id == nextId store) = none := by
  rw [List.find?_eq_none]
  intro p hp
  simp only [beq_iff_eq]
  exact Nat.ne_of_lt (id_lt_nextId store p hp)

/-- Claim C7: completing the guided flow with a non-empty description and
a parseable purchase date inserts a record that reads back with
`expires_at` equal to the purchase-date local-midnight instant plus the
configured default duration in days, `duration_days` equal to that
default, and `is_active` true. -/
theorem insert_then_get (parse : String → Option Int) (dd : Int)
    (desc text : String) (store : List Product) (now pdate : Int)
    (hdesc : desc ≠ "") (hparse : parse (pyStrip text) = some pdate) :
    (add_got_date parse dd (some desc) text store now).reply =
      Reply.created (nextId store) (pdate + dd * secPerDay) ∧
    (add_got_date parse dd (some desc) text store now).store.find?
        (fun p => p.id == nextId store) =
      some ⟨nextId store, desc, none, pdate, dd, pdate + dd * secPerDay,
            true, now, now⟩ := by
  have hout : add_got_date parse dd (some desc) text store now =
      ⟨store ++ [⟨nextId store, desc, none, pdate, dd, pdate + dd * secPerDay,
                  true, now, now⟩],
       none, .idle, .created (nextId store) (pdate + dd * secPerDay)⟩ := by
    simp [add_got_date, hparse, beq_iff_eq, hdesc]
  rw [hout]
  refine ⟨rfl, ?_⟩
  simp only
  rw [List.find?_append, find?_nextId_none]
  simp [List.find?]

/-- Witness for C7 at a concrete description and ISO date on an empty
store (the parsed instant is local midnight of 2025-01-01, UTC+4). -/
theorem insert_then_get_witness :
    (add_got_date parseDate? 30 (some "Plan A") "2025-01-01" [] 0).reply =
      Reply.created (nextId []) (1735675200 + 30 * secPerDay) ∧
    (add_got_date parseDate? 30 (some "Plan A") "2025-01-01" [] 0).store.find?
        (fun p => p.id == nextId []) =
      some ⟨nextId [], "Plan A", none, 1735675200, 30, 1735675200 + 30 * secPerDay,
            true, 0, 0⟩ :=
  insert_then_get parseDate? 30 "Plan A" "2025-01-01" [] 0 1735675200
    (by decide) (by decide)

/-- Claim C8: for any mixture of active/inactive records with past/future
expiries, `list_expired` returns only active records with `expires_at ≤
now`; below the 200-row limit it returns exactly them; and the result is
ordered by expiry ascending. -/
theorem list_expired_spec (store : List Product) (now : Int) :
    (∀ p ∈ list_expired store now, p.is_active = true ∧ p.expires_at ≤ now) ∧
    ((store.filter (fun p => p.is_active && decide (p.expires_at ≤ now))).length ≤ 200 →
       ∀ p, p ∈ list_expired store now ↔
         p ∈ store ∧ p.is_active = true ∧ p.expires_at ≤ now) ∧
    (list_expired store now).Pairwise (fun a b => a.expires_at ≤ b.expires_at) := by
  have hperm :
      ((store.filter (fun p => p.is_active && decide (p.expires_at ≤ now))).mergeSort
        (fun a b => decide (a.expires_at ≤ b.expires_at))).Perm
        (store.filter (fun p => p.is_active && decide (p.expires_at ≤ now))) :=
    List.mergeSort_perm _ _
  refine ⟨?_, ?_, ?_⟩
  · intro p hp
    have hp2 : p ∈ (store.filter
        (fun p => p.is_active && decide (p.expires_at ≤ now))).mergeSort
        (fun a b => decide (a.expires_at ≤ b.expires_at)) :=
      (List.take_sublist _ _).subset hp
    have hp3 := hperm.mem_iff.mp hp2
    have := List.mem_filter.mp hp3
    simpa using this.2
  · intro hlen p
    have htake : ((store.filter
        (fun p => p.is_active && decide (p.expires_at ≤ now))).mergeSort
        (fun a b => decide (a.expires_at ≤ b.expires_at))).take 200 =
        (store.filter (fun p => p.is_active && decide (p.expires_at ≤ now))).mergeSort
        (fun a b => decide (a.expires_at ≤ b.expires_at)) :=
      List.take_of_length_le (by rw [hperm.length_eq]; exact hlen)
    unfold list_expired
    rw [htake, hperm.mem_iff, List.mem_filter]
    simp
  · have hsorted := @List.sorted_mergeSort Product
      (fun a b : Product => decide (a.expires_at ≤ b.expires_at))
      (fun a b c hab hbc => by
        simp only [decide_eq_true_eq] at hab hbc ⊢
        exact le_trans hab hbc)
      (fun a b => by
        simp only [Bool.or_eq_true, decide_eq_true_eq]
        exact le_total a.expires_at b.expires_at)
      (store.filter (fun p => p.is_active && decide (p.expires_at ≤ now)))
    have hsorted2 : ((store.filter
        (fun p => p.is_active && decide (p.expires_at ≤ now))).mergeSort
        (fun a b => decide (a.expires_at ≤ b.expires_at))).Pairwise
        (fun a b : Product => a.expires_at ≤ b.expires_at) :=
      hsorted.imp (fun hab => by simpa using hab)
    exact hsorted2.sublist (List.take_sublist _ _)

/-- Witness for C8: on a two-row store (one active expired, one inactive
expired) the active expired row is returned. -/
theorem list_expired_spec_witness :
    (⟨1, "a", none, 0, 30, 10, true, 0, 0⟩ : Product) ∈
      list_expired [⟨1, "a", none, 0, 30, 10, true, 0, 0⟩,
                    ⟨2, "b", none, 0, 30, 5, false, 0, 0⟩] 50 :=
  ((list_expired_spec [⟨1, "a", none, 0, 30, 10, true, 0, 0⟩,
      ⟨2, "b", none, 0, 30, 5, false, 0, 0⟩] 50).2.1 (by decide)
    ⟨1, "a", none, 0, 30, 10, true, 0, 0⟩).mpr (by decide)

end SalesBot
